import Mathlib

/-
Verification development for the recipe-management backend
(user registration / authentication, per-user CRUD over recipes, tags and
ingredients, exposed over HTTP).

Shallow embedding conventions:
  * relational rows become Lean structures with a `Nat` primary key;
  * the persisted database becomes an explicit `Store` value threaded
    through every operation;
  * HTTP outcomes become the `Http` inductive;
  * Django/DRF framework behavior that the views rely on (queryset-scoped
    `get_object` returning 404, `self.action` being the handler method
    name, the default permission class being `AllowAny` when a view
    declares none) is modelled exactly where each view uses it.

Source files embedded:
  * `app/recipe/views.py`   (RecipeViewSet, BaseRecipeAttrViewset)
  * `app/user/views.py`     (CreateUserView, CreateTokenView,
                             ManageUserView, PasswordChangeViewset)
  * `app/user/serializers.py` (UserSerializer)
The nested-entity reconciliation (`recipe/serializers.py`) and the user
model manager (`core/models.py`) are not among the provided sources; the
definitions that stand in for them are marked `Modelled from the spec:`
and follow the specification text, cross-checked against the
repository's own test suite.
-/

namespace RecipeApp

/-- An authenticated principal; only the primary key matters for the
scoping logic, the e-mail is kept for the registration claims. -/
structure User where
  id : Nat
  email : String
  deriving DecidableEq, Repr

/-- A Tag row: `(user FK, name)`, exactly the shape in `core.models.Tag`.
`Ingredient` has the identical shape and the identical code paths
(spec §4.2: same algorithm for both), so the development models the Tag
instance of every claim. -/
structure Tag where
  id : Nat
  userId : Nat
  name : String
  deriving DecidableEq, Repr

/-- A Recipe row with the scalar fields the claims touch and the
many-to-many association with tags kept as the list of Tag primary keys.
Remaining scalar columns (price, description, image) behave exactly like
`title`/`link` under the serializers and are not separately modelled. -/
structure Recipe where
  id : Nat
  userId : Nat
  title : String
  timeMinutes : Nat
  link : String
  tagIds : List Nat
  deriving DecidableEq, Repr

/-- The persisted database: the Tag table and the Recipe table (with the
join table inlined as `Recipe.tagIds`). -/
structure Store where
  tags : List Tag
  recipes : List Recipe
  deriving DecidableEq, Repr

/-- HTTP statuses the embedded endpoints can produce. -/
inductive Http where
  | ok200
  | created201
  | noContent204
  | badRequest400
  | unauthorized401
  | forbidden403
  | notFound404
  deriving DecidableEq, Repr

/-- Next free Tag primary key. -/
def freshTagId (s : Store) : Nat := (s.tags.map Tag.id).foldl max 0 + 1

/-- Next free Recipe primary key. -/
def freshRecipeId (s : Store) : Nat := (s.recipes.map Recipe.id).foldl max 0 + 1

/-- Row predicate for the `(user, name)` natural key of a Tag. -/
def tagMatches (u : Nat) (n : String) (t : Tag) : Bool :=
  t.userId == u && t.name == n

/-- Modelled from the spec: `recipe/serializers.py` (the get-or-create
helper invoked per tag name) is not among the provided sources. Spec
§4.1 Upsert Resolver: look up an existing Tag row matching `(user, name)`
exactly (case-sensitive); if found return it unchanged, if absent create
a new row with that `(user, name)` and return it. -/
def resolveTag (s : Store) (u : Nat) (n : String) : Tag × Store :=
  match s.tags.find? (tagMatches u n) with
  | some t => (t, s)
  | none =>
      let t : Tag := ⟨freshTagId s, u, n⟩
      (t, { s with tags := s.tags ++ [t] })

/-- Modelled from the spec: reconciliation pass of spec §4.2 — for every
name in order, call the Upsert Resolver for `(recipe.user, name)` and
ensure the returned entity is a member of the accumulating association
set (idempotent if already present). Returns the resolved id set and the
store after all upserts. -/
def resolveAll (s : Store) (u : Nat) (names : List String) (acc : List Nat) :
    List Nat × Store :=
  match names with
  | [] => (acc, s)
  | n :: rest =>
      let ts := resolveTag s u n
      resolveAll ts.2 u rest (if ts.1.id ∈ acc then acc else acc ++ [ts.1.id])

/-- A PATCH/PUT payload for a recipe: optional scalar fields, the
optional inline tag-name list, and the `user` key a client may try to
smuggle in (spec §3: it must be rejected or silently ignored). -/
structure RecipePayload where
  title : Option String
  timeMinutes : Option Nat
  link : Option String
  userId : Option Nat
  tags : Option (List String)
  deriving DecidableEq, Repr

/-- Ordering relation for `order_by('-id')` in
`RecipeViewSet.get_queryset` (`app/recipe/views.py` line 27). -/
def byIdDesc (a b : Recipe) : Prop := b.id ≤ a.id

instance : DecidableRel byIdDesc := fun a b => Nat.decLe b.id a.id

/-- Ordering relation for `order_by('-name')` in
`BaseRecipeAttrViewset.get_queryset` (`app/recipe/views.py` line 61). -/
def byNameDesc (a b : Tag) : Prop := ¬ a.name < b.name

instance : DecidableRel byNameDesc := fun a b =>
  inferInstanceAs (Decidable ¬ (a.name < b.name))

/-- Query parameters of the recipe list endpoint. The repository's tests
send `tags` / `ingredients` as comma-separated id strings. -/
structure RecipeListParams where
  tags : Option String
  ingredients : Option String
  deriving DecidableEq, Repr

/-- `RecipeViewSet.get_queryset` (`app/recipe/views.py` lines 26-27):
`self.queryset.filter(user=self.request.user).order_by('-id')`. The
request's query parameters are never read, so they appear as an argument
only to record that the result does not depend on them. -/
def recipeQueryset (s : Store) (requester : Nat) (_params : RecipeListParams) :
    List Recipe :=
  List.insertionSort byIdDesc (s.recipes.filter (fun r => r.userId == requester))

/-- DRF `get_object` as used by retrieve/update/destroy on
`RecipeViewSet`: look the pk up inside the user-scoped queryset; a miss
is a 404, never a 403 (there is no object-level permission class). -/
def getObject (s : Store) (requester rid : Nat) : Option Recipe :=
  s.recipes.find? (fun r => r.userId == requester && r.id == rid)

/-- Write back one row of the Recipe table by primary key. -/
def replaceRecipe (s : Store) (r : Recipe) : Store :=
  { s with recipes := s.recipes.map (fun x => if x.id == r.id then r else x) }

/-- Scalar part of a serializer update: each field present in the payload
overwrites the instance field. The serializer exposes no writable `user`
field, so `p.userId` is never consulted (spec §3 invariant; confirmed by
`test_update_error`, which asserts the owner is unchanged after a PATCH
carrying a `user` key). -/
def applyScalars (r : Recipe) (p : RecipePayload) : Recipe :=
  { r with
    title := p.title.getD r.title
    timeMinutes := p.timeMinutes.getD r.timeMinutes
    link := p.link.getD r.link }

/-- Modelled from the spec: the tag branch of the recipe serializer's
`update` (`recipe/serializers.py`, not among the provided sources). Spec
§4.3: if the `tags` field is present in the payload, reconcile treating
explicit field presence as FULL — the association set becomes exactly the
entities resolved from the supplied names (the repository's own tests
`test_update_recipe_replace_tag` and `test_clear_recipe_tags` pin this:
a present list replaces, a present empty list clears); if the field is
absent, associations are untouched. -/
def reconcileOnUpdate (s : Store) (r : Recipe) (tagsField : Option (List String)) :
    Recipe × Store :=
  match tagsField with
  | none => (r, s)
  | some names =>
      let res := resolveAll s r.userId names []
      ({ r with tagIds := res.1 }, res.2)

/-- PATCH (and PUT, which differs only in which scalar fields are
required) on `/recipe/recipes/pk`: scoped `get_object`, scalar update,
tag reconciliation. Returns the HTTP status and the resulting store. -/
def patchRecipe (s : Store) (requester rid : Nat) (p : RecipePayload) :
    Http × Store :=
  match getObject s requester rid with
  | none => (.notFound404, s)
  | some r =>
      let rs := reconcileOnUpdate s (applyScalars r p) p.tags
      (.ok200, replaceRecipe rs.2 rs.1)

/-- DELETE on `/recipe/recipes/pk`: scoped `get_object`, then row
removal; deleting removes the association rows (inlined in `tagIds`) but
no Tag rows. -/
def deleteRecipe (s : Store) (requester rid : Nat) : Http × Store :=
  match getObject s requester rid with
  | none => (.notFound404, s)
  | some _ =>
      (.noContent204,
       { s with recipes := s.recipes.filter (fun r => !(r.id == rid)) })

/-- GET on `/recipe/recipes/pk`. -/
def retrieveRecipe (s : Store) (requester rid : Nat) : Http × Option Recipe :=
  match getObject s requester rid with
  | none => (.notFound404, none)
  | some r => (.ok200, some r)

/-- POST on `/recipe/recipes`: `perform_create` saves the serializer
with `user=self.request.user` (`app/recipe/views.py` lines 37-38); the
tag branch of the serializer's `create` reconciles a present list
against the empty starting set (spec §4.3, modelled from the spec since
`recipe/serializers.py` is not among the provided sources). -/
def createRecipe (s : Store) (requester : Nat) (title : String)
    (timeMinutes : Nat) (link : String) (tagNames : Option (List String)) :
    Recipe × Store :=
  let base : Recipe :=
    ⟨freshRecipeId s, requester, title, timeMinutes, link, []⟩
  match tagNames with
  | none => (base, { s with recipes := s.recipes ++ [base] })
  | some names =>
      let res := resolveAll s requester names []
      let r := { base with tagIds := res.1 }
      (r, { res.2 with recipes := res.2.recipes ++ [r] })

/-- Query parameters of the tag/ingredient list endpoints. -/
structure AttrListParams where
  assignedOnly : Option Nat
  deriving DecidableEq, Repr

/-- `BaseRecipeAttrViewset.get_queryset` (`app/recipe/views.py` lines
60-61): `self.queryset.filter(user=self.request.user).order_by('-name')`.
The `assigned_only` query parameter is never read. -/
def tagQueryset (s : Store) (requester : Nat) (_params : AttrListParams) :
    List Tag :=
  List.insertionSort byNameDesc (s.tags.filter (fun t => t.userId == requester))

/-- Tag ids of a recipe looked up by primary key (empty when absent);
used to observe association sets across operations. -/
def recipeTagIds (s : Store) (rid : Nat) : List Nat :=
  ((s.recipes.find? (fun r => r.id == rid)).map Recipe.tagIds).getD []

/-- Owner of a recipe looked up by primary key (`none` when absent). -/
def recipeOwner (s : Store) (rid : Nat) : Option Nat :=
  (s.recipes.find? (fun r => r.id == rid)).map Recipe.userId

/- ----------------------------------------------------------------
User registration (`app/user/serializers.py`).
---------------------------------------------------------------- -/

/-- A registration payload as sent to `POST /user/create`. -/
structure RegistrationPayload where
  email : String
  password : String
  name : String
  deriving DecidableEq, Repr

/-- `UserSerializer.Meta.fields` (`app/user/serializers.py` line 11). -/
def userSerializerFields : List String := ["email", "password", "name"]

/-- `UserSerializer.Meta.extra_kwargs` (`app/user/serializers.py` line
12), transcribed with its actual key: the mapping is keyed by the string
"passowrd" (sic), carrying `min_length = 5`. -/
def userSerializerExtraKwargs : List (String × Nat) := [("passowrd", 5)]

/-- The `min_length` DRF attaches to a serializer field: the entry of
`extra_kwargs` under that exact field name, if any (entries under names
that are not fields are silently ignored by DRF). -/
def minLengthFor (field : String) : Option Nat :=
  (userSerializerExtraKwargs.find? (fun kv => kv.1 == field)).map Prod.snd

/-- Serializer validation of a registration payload against a list of
already-registered e-mail addresses: the three declared fields are
required (non-empty here), the e-mail must be unused (model-level unique
constraint), and the password must meet whatever `min_length` is
attached to the `password` field. -/
def validRegistration (existing : List String) (p : RegistrationPayload) : Bool :=
  !p.email.isEmpty && !p.password.isEmpty && !p.name.isEmpty &&
  !existing.contains p.email &&
  (match minLengthFor "password" with
   | some m => m ≤ p.password.length
   | none => true)

/-- How `UserSerializer.create` hands the validated data to the user
model manager: which value lands in `create_user`'s first positional
parameter (the `email` slot), and which in its `password` keyword. -/
inductive EmailArg where
  | fromString (s : String)
  | fromMapping (m : RegistrationPayload)
  deriving DecidableEq, Repr

/-- The argument list of one `create_user` invocation. -/
structure CreateUserCall where
  emailArg : EmailArg
  passwordArg : Option String
  deriving DecidableEq, Repr

/-- `UserSerializer.create` (`app/user/serializers.py` lines 14-15):
`return get_user_model().objects.create_user(validated_data)` — the
whole validated-data mapping is passed as the single positional
argument, and no `password` argument is supplied. -/
def userSerializerCreate (validatedData : RegistrationPayload) : CreateUserCall :=
  { emailArg := .fromMapping validatedData, passwordArg := none }

/- ----------------------------------------------------------------
Endpoint authentication requirements (`app/user/views.py`,
`app/recipe/views.py`).
---------------------------------------------------------------- -/

/-- The API surface: one constructor per view class wired to a URL. -/
inductive Endpoint where
  | createUser      -- POST /user/create          (CreateUserView)
  | createToken     -- POST /user/token           (CreateTokenView)
  | manageUser      -- GET/PATCH /user/me         (ManageUserView)
  | passwordChange  -- password change by e-mail  (PasswordChangeViewset)
  | recipes         -- /recipe/recipes            (RecipeViewSet)
  | tags            -- /recipe/tags               (TagViewSet)
  | ingredients     -- /recipe/ingredients        (IngredientViewSet)
  deriving DecidableEq, Repr

/-- Whether a view rejects unauthenticated requests, transcribed from
each class's `permission_classes` declaration (`IsAuthenticated` gives
`true`); a class that declares none falls back to DRF's default
permission class `AllowAny`, giving `false`. `CreateUserView`,
`CreateTokenView` and `PasswordChangeViewset` declare none
(`app/user/views.py` lines 13-14, 17-19 and 31-37). -/
def requiresAuth : Endpoint → Bool
  | .createUser => false
  | .createToken => false
  | .manageUser => true
  | .passwordChange => false
  | .recipes => true
  | .tags => true
  | .ingredients => true

/-- Whether an unauthenticated request to the endpoint can change
persisted state, from each view's HTTP verbs after the permission
check: `PasswordChangeViewset` is an `UpdateAPIView` whose `get_object`
fetches the user addressed by e-mail, so an unauthenticated PUT/PATCH
reaching it updates that user's credentials. Views guarded by
`IsAuthenticated` never let an unauthenticated request reach a handler,
and `CreateUserView` / `CreateTokenView` only create. -/
def unauthenticatedRequestMutates : Endpoint → Bool
  | .passwordChange => true
  | _ => false

/- ----------------------------------------------------------------
Image upload (`app/recipe/views.py` lines 29-49).
---------------------------------------------------------------- -/

/-- The serializer classes `RecipeViewSet.get_serializer_class` chooses
between. -/
inductive SerializerClass where
  | recipeSerializer
  | recipeDetailSerializer
  | recipeImageSerializer
  deriving DecidableEq, Repr

/-- `RecipeViewSet.get_serializer_class` (`app/recipe/views.py` lines
29-35), branching on `self.action`. -/
def getSerializerClass (action : String) : SerializerClass :=
  if action == "list" then .recipeSerializer
  else if action == "upload-image" then .recipeImageSerializer
  else .recipeDetailSerializer

/-- The value DRF assigns to `self.action` while the custom action runs:
the name of the handler method, `def upload_image(...)`; the
`url_path` argument (value "upload-image") only shapes the URL. -/
def uploadImageActionName : String := "upload_image"

/- ----------------------------------------------------------------
Concrete database fixtures, mirroring the scenarios of the test suite.
---------------------------------------------------------------- -/

/-- Fixture mirroring `test_update_recipe_replace_tag`: user 1 owns
recipe 10, which is associated with Tag 5 named "karthik". -/
def c1Store : Store :=
  ⟨[⟨5, 1, "karthik"⟩], [⟨10, 1, "sample recipe title", 22, "", [5]⟩]⟩

/-- The one recipe row of `c1Store`. -/
def c1Recipe : Recipe := ⟨10, 1, "sample recipe title", 22, "", [5]⟩

/-- PATCH payload carrying a tags field naming only "perisetti". -/
def c1PayloadTags : RecipePayload := ⟨none, none, none, none, some ["perisetti"]⟩

/-- PATCH payload with the tags field entirely absent. -/
def c1PayloadNoTags : RecipePayload := ⟨some "new recipe title", none, none, none, none⟩

/-- Fixture mirroring `test_delete_other_users_recipe_error`: recipe 7
belongs to user 1; user 2 will be the requester. -/
def c3Store : Store := ⟨[], [⟨7, 1, "sample recipe title", 22, "", []⟩]⟩

/-- The one recipe row of `c3Store`. -/
def c3Recipe : Recipe := ⟨7, 1, "sample recipe title", 22, "", []⟩

/-- A scalar-only PATCH payload used by the cross-user attempts. -/
def c3Payload : RecipePayload := ⟨some "new recipe title", none, none, none, none⟩

/-- Fixture mirroring `test_filter_by_tags`: three recipes of user 1,
two of them tagged, one untagged. -/
def c4Store : Store :=
  ⟨[⟨1, 1, "breakfast"⟩, ⟨2, 1, "lunch"⟩],
   [⟨1, 1, "chicken", 22, "", [1]⟩, ⟨2, 1, "mutton", 22, "", [2]⟩,
    ⟨3, 1, "fish", 22, "", []⟩]⟩

/-- The recipe of `c4Store` tagged with neither requested tag. -/
def c4FishRecipe : Recipe := ⟨3, 1, "fish", 22, "", []⟩

/-- Fixture mirroring `test_filter_assigned_only`: Tag 1 is linked to a
recipe, Tag 2 is linked to none. -/
def c5Store : Store :=
  ⟨[⟨1, 1, "ing1"⟩, ⟨2, 1, "ing2"⟩], [⟨1, 1, "recipe1", 5, "", [1]⟩]⟩

/-- The tag of `c5Store` with zero associated recipes. -/
def c5UnassignedTag : Tag := ⟨2, 1, "ing2"⟩

/-- The registration payload of `test_user_with_password_short`: a
4-character password. -/
def c7ShortPasswordPayload : RegistrationPayload :=
  ⟨"test@example.com", "test", "test name"⟩

/-- Fixture mirroring `test_update_error`: recipe 4 owned by user 1. -/
def c8Store : Store := ⟨[], [⟨4, 1, "sample recipe title", 22, "", []⟩]⟩

/-- The one recipe row of `c8Store`. -/
def c8Recipe : Recipe := ⟨4, 1, "sample recipe title", 22, "", []⟩

/-- PATCH payload attempting to reassign the recipe to user 2 while
renaming it, as in `test_update_error`. -/
def c8Payload : RecipePayload := ⟨some "new recipe title", none, none, some 2, none⟩

/- ----------------------------------------------------------------
Lemmas about the Upsert Resolver.
---------------------------------------------------------------- -/

theorem resolveTag_fst_userId (s : Store) (u : Nat) (n : String) :
    (resolveTag s u n).1.userId = u := by
  cases hfind : s.tags.find? (tagMatches u n) with
  | none => simp [resolveTag, hfind]
  | some t =>
      have h := List.find?_some hfind
      simp [tagMatches, Bool.and_eq_true] at h
      simp [resolveTag, hfind, h.1]

theorem resolveTag_fst_name (s : Store) (u : Nat) (n : String) :
    (resolveTag s u n).1.name = n := by
  cases hfind : s.tags.find? (tagMatches u n) with
  | none => simp [resolveTag, hfind]
  | some t =>
      have h := List.find?_some hfind
      simp [tagMatches, Bool.and_eq_true] at h
      simp [resolveTag, hfind, h.2]

theorem resolveTag_fst_mem (s : Store) (u : Nat) (n : String) :
    (resolveTag s u n).1 ∈ (resolveTag s u n).2.tags := by
  cases hfind : s.tags.find? (tagMatches u n) with
  | none => simp [resolveTag, hfind]
  | some t =>
      have h := List.mem_of_find?_eq_some hfind
      simp [resolveTag, hfind, h]

theorem resolveTag_tags_mono (s : Store) (u : Nat) (n : String) (t : Tag)
    (h : t ∈ s.tags) : t ∈ (resolveTag s u n).2.tags := by
  cases hfind : s.tags.find? (tagMatches u n) with
  | none => simp [resolveTag, hfind]; exact Or.inl h
  | some t2 => simp [resolveTag, hfind]; exact h

theorem resolveTag_recipes (s : Store) (u : Nat) (n : String) :
    (resolveTag s u n).2.recipes = s.recipes := by
  cases hfind : s.tags.find? (tagMatches u n) with
  | none => simp [resolveTag, hfind]
  | some t => simp [resolveTag, hfind]

theorem resolveTag_idem (s : Store) (u : Nat) (n : String) :
    resolveTag (resolveTag s u n).2 u n = resolveTag s u n := by
  cases hfind : s.tags.find? (tagMatches u n) with
  | some t => simp [resolveTag, hfind]
  | none =>
      have hmatch : tagMatches u n ⟨freshTagId s, u, n⟩ = true := by
        simp [tagMatches]
      simp [resolveTag, hfind, List.find?_append, hmatch]

/- ----------------------------------------------------------------
Lemmas about the reconciliation pass.
---------------------------------------------------------------- -/

theorem resolveAll_recipes (u : Nat) (names : List String) :
    ∀ (s : Store) (acc : List Nat),
      (resolveAll s u names acc).2.recipes = s.recipes := by
  induction names with
  | nil => intro s acc; rfl
  | cons n rest ih =>
      intro s acc
      simp only [resolveAll]
      rw [ih, resolveTag_recipes]

theorem resolveAll_acc_mono (u : Nat) (names : List String) :
    ∀ (s : Store) (acc : List Nat) (tid : Nat),
      tid ∈ acc → tid ∈ (resolveAll s u names acc).1 := by
  induction names with
  | nil => intro s acc tid h; exact h
  | cons n rest ih =>
      intro s acc tid h
      simp only [resolveAll]
      apply ih
      by_cases hc : (resolveTag s u n).1.id ∈ acc
      · rw [if_pos hc]; exact h
      · rw [if_neg hc]; exact List.mem_append_left _ h

theorem resolveAll_tags_mono (u : Nat) (names : List String) :
    ∀ (s : Store) (acc : List Nat) (t : Tag),
      t ∈ s.tags → t ∈ (resolveAll s u names acc).2.tags := by
  induction names with
  | nil => intro s acc t h; exact h
  | cons n rest ih =>
      intro s acc t h
      simp only [resolveAll]
      exact ih _ _ _ (resolveTag_tags_mono s u n t h)

theorem resolveAll_complete (u : Nat) (names : List String) :
    ∀ (s : Store) (acc : List Nat) (n : String), n ∈ names →
      ∃ t, t ∈ (resolveAll s u names acc).2.tags ∧ t.userId = u ∧ t.name = n ∧
        t.id ∈ (resolveAll s u names acc).1 := by
  induction names with
  | nil => intro s acc n h; cases h
  | cons m rest ih =>
      intro s acc n h
      simp only [resolveAll]
      rcases List.mem_cons.mp h with heq | hmem
      · subst heq
        refine ⟨(resolveTag s u n).1,
          resolveAll_tags_mono u rest _ _ _ (resolveTag_fst_mem s u n),
          resolveTag_fst_userId s u n, resolveTag_fst_name s u n, ?_⟩
        apply resolveAll_acc_mono
        by_cases hc : (resolveTag s u n).1.id ∈ acc
        · rw [if_pos hc]; exact hc
        · rw [if_neg hc]
          exact List.mem_append_right _ (List.mem_singleton.mpr rfl)
      · exact ih _ _ _ hmem

theorem resolveAll_sound (u : Nat) (names : List String) :
    ∀ (s : Store) (acc : List Nat) (tid : Nat),
      tid ∈ (resolveAll s u names acc).1 →
      tid ∈ acc ∨ ∃ t, t ∈ (resolveAll s u names acc).2.tags ∧ t.id = tid ∧
        t.userId = u ∧ t.name ∈ names := by
  induction names with
  | nil => intro s acc tid h; exact Or.inl h
  | cons m rest ih =>
      intro s acc tid h
      simp only [resolveAll] at h ⊢
      rcases ih _ _ _ h with hacc | ⟨t, ht, hid, hu2, hn⟩
      · by_cases hc : (resolveTag s u m).1.id ∈ acc
        · rw [if_pos hc] at hacc; exact Or.inl hacc
        · rw [if_neg hc] at hacc
          rcases List.mem_append.mp hacc with h1 | h2
          · exact Or.inl h1
          · have htid : tid = (resolveTag s u m).1.id := List.mem_singleton.mp h2
            refine Or.inr ⟨(resolveTag s u m).1,
              resolveAll_tags_mono u rest _ _ _ (resolveTag_fst_mem s u m),
              htid.symm, resolveTag_fst_userId s u m, ?_⟩
            rw [resolveTag_fst_name]
            exact List.mem_cons_self m rest
      · exact Or.inr ⟨t, ht, hid, hu2, List.mem_cons_of_mem m hn⟩

/- ----------------------------------------------------------------
Lemmas about primary-key lookup and row replacement.
---------------------------------------------------------------- -/

theorem find?_id_self (l : List Recipe) (r : Recipe) (hmem : r ∈ l)
    (hids : ∀ x ∈ l, ∀ y ∈ l, x.id = y.id → x = y) :
    l.find? (fun x => x.id == r.id) = some r := by
  cases hfind : l.find? (fun x => x.id == r.id) with
  | none =>
      have := List.find?_eq_none.mp hfind r hmem
      simp at this
  | some x =>
      have hx := List.find?_some hfind
      have hmx := List.mem_of_find?_eq_some hfind
      have hxr : x = r := hids x hmx r hmem (by simpa using hx)
      rw [hxr]

theorem find?_replace_ne (l : List Recipe) (rnew : Recipe) (j : Nat)
    (hj : j ≠ rnew.id) :
    (l.map (fun x => if x.id == rnew.id then rnew else x)).find?
        (fun x => x.id == j) =
      l.find? (fun x => x.id == j) := by
  induction l with
  | nil => rfl
  | cons a l ih =>
      by_cases ha : a.id = rnew.id
      · have h1 : (rnew.id == j) = false := by
          simp; exact fun h2 => hj h2.symm
        have h2 : (a.id == j) = false := by
          simp [ha]; exact fun h2 => hj h2.symm
        simp only [List.map_cons, if_pos (show (a.id == rnew.id) = true by simp [ha])]
        simp only [List.find?, h1, h2]
        exact ih
      · simp only [List.map_cons,
          if_neg (show ¬ ((a.id == rnew.id) = true) by simp [ha])]
        by_cases haj : a.id = j
        · simp only [List.find?, show (a.id == j) = true by simp [haj]]
        · simp only [List.find?, show (a.id == j) = false by simp [haj]]
          exact ih

theorem find?_replace_eq (l : List Recipe) (rnew : Recipe) :
    (l.map (fun x => if x.id == rnew.id then rnew else x)).find?
        (fun x => x.id == rnew.id) =
      (l.find? (fun x => x.id == rnew.id)).map (fun _ => rnew) := by
  induction l with
  | nil => rfl
  | cons a l ih =>
      by_cases ha : a.id = rnew.id
      · simp only [List.map_cons, if_pos (show (a.id == rnew.id) = true by simp [ha])]
        simp only [List.find?, show (rnew.id == rnew.id) = true by simp,
          show (a.id == rnew.id) = true by simp [ha]]
        rfl
      · simp only [List.map_cons,
          if_neg (show ¬ ((a.id == rnew.id) = true) by simp [ha])]
        simp only [List.find?, show (a.id == rnew.id) = false by simp [ha]]
        exact ih

theorem find?_replace_key (l : List Recipe) (rnew : Recipe) (j : Nat)
    (hj : rnew.id = j) :
    (l.map (fun x => if x.id == rnew.id then rnew else x)).find?
        (fun x => x.id == j) =
      (l.find? (fun x => x.id == j)).map (fun _ => rnew) := by
  subst hj
  exact find?_replace_eq l rnew

theorem recipeTagIds_of_mem (s : Store) (r : Recipe) (hmem : r ∈ s.recipes)
    (hids : ∀ x ∈ s.recipes, ∀ y ∈ s.recipes, x.id = y.id → x = y) :
    recipeTagIds s r.id = r.tagIds := by
  simp only [recipeTagIds]
  rw [find?_id_self s.recipes r hmem hids]
  rfl

theorem recipeOwner_of_mem (s : Store) (r : Recipe) (hmem : r ∈ s.recipes)
    (hids : ∀ x ∈ s.recipes, ∀ y ∈ s.recipes, x.id = y.id → x = y) :
    recipeOwner s r.id = some r.userId := by
  simp only [recipeOwner]
  rw [find?_id_self s.recipes r hmem hids]
  rfl

theorem recipeTagIds_replaceRecipe (s : Store) (rnew r : Recipe)
    (hmem : r ∈ s.recipes)
    (hids : ∀ x ∈ s.recipes, ∀ y ∈ s.recipes, x.id = y.id → x = y)
    (hid : rnew.id = r.id) :
    recipeTagIds (replaceRecipe s rnew) r.id = rnew.tagIds := by
  simp only [recipeTagIds, replaceRecipe]
  rw [find?_replace_key s.recipes rnew r.id hid]
  rw [find?_id_self s.recipes r hmem hids]
  rfl

theorem recipeOwner_replaceRecipe (s : Store) (rnew r : Recipe)
    (hmem : r ∈ s.recipes)
    (hids : ∀ x ∈ s.recipes, ∀ y ∈ s.recipes, x.id = y.id → x = y)
    (hid : rnew.id = r.id) :
    recipeOwner (replaceRecipe s rnew) r.id = some rnew.userId := by
  simp only [recipeOwner, replaceRecipe]
  rw [find?_replace_key s.recipes rnew r.id hid]
  rw [find?_id_self s.recipes r hmem hids]
  rfl

/- ----------------------------------------------------------------
Claim theorems.
---------------------------------------------------------------- -/

/-- C3: for all users U1 and U2 with U1 ≠ U2, a recipe created by U1 is
never visible to U2 through list, detail, update, or delete: it is
absent from the scoped list queryset, and the detail, PATCH and DELETE
attempts return 404 (never 403) while leaving the store unchanged.
The primary-key injectivity hypothesis is the database invariant that
no two rows share an id. -/
theorem C3_cross_user_isolation
    (s : Store) (r : Recipe) (u2 : Nat) (params : RecipeListParams)
    (p : RecipePayload)
    (hmem : r ∈ s.recipes) (hne : r.userId ≠ u2)
    (hids : ∀ x ∈ s.recipes, ∀ y ∈ s.recipes, x.id = y.id → x = y) :
    r ∉ recipeQueryset s u2 params ∧
    retrieveRecipe s u2 r.id = (Http.notFound404, none) ∧
    patchRecipe s u2 r.id p = (Http.notFound404, s) ∧
    deleteRecipe s u2 r.id = (Http.notFound404, s) ∧
    Http.notFound404 ≠ Http.forbidden403 := by
  have hnone : getObject s u2 r.id = none := by
    show s.recipes.find? (fun x => x.userId == u2 && x.id == r.id) = none
    apply List.find?_eq_none.mpr
    intro x hx hpx
    simp [Bool.and_eq_true] at hpx
    obtain ⟨hxu, hxid⟩ := hpx
    have hxr : x = r := hids x hx r hmem hxid
    exact hne (hxr ▸ hxu)
  refine ⟨?_, ?_, ?_, ?_, by decide⟩
  · intro hmemq
    simp only [recipeQueryset, List.mem_insertionSort] at hmemq
    have hflt := (List.mem_filter.mp hmemq).2
    simp at hflt
    exact hne hflt
  · simp [retrieveRecipe, hnone]
  · simp [patchRecipe, hnone]
  · simp [deleteRecipe, hnone]

/-- C3 witness: the theorem applied to a store where recipe 7 belongs to
user 1 and user 2 is the requester. -/
theorem C3_cross_user_isolation_witness :
    c3Recipe ∈ c3Store.recipes ∧ c3Recipe.userId ≠ 2 ∧
    (∀ x ∈ c3Store.recipes, ∀ y ∈ c3Store.recipes, x.id = y.id → x = y) ∧
    (c3Recipe ∉ recipeQueryset c3Store 2 ⟨none, none⟩ ∧
     retrieveRecipe c3Store 2 c3Recipe.id = (Http.notFound404, none) ∧
     patchRecipe c3Store 2 c3Recipe.id c3Payload = (Http.notFound404, c3Store) ∧
     deleteRecipe c3Store 2 c3Recipe.id = (Http.notFound404, c3Store) ∧
     Http.notFound404 ≠ Http.forbidden403) :=
  ⟨by decide, by decide, by decide,
   C3_cross_user_isolation c3Store c3Recipe 2 ⟨none, none⟩ c3Payload
     (by decide) (by decide) (by decide)⟩

/-- C1 counterexample: the claim states that on PATCH, reconciliation
never removes existing members of the association set. At this concrete
input — an existing recipe associated with Tag 5 and a PATCH whose
payload contains a tags field naming only "perisetti" — the update
succeeds (200) and the existing member Tag 5 is removed from the
association set (its Tag row survives); this is exactly the behavior
the repository pins in `test_update_recipe_replace_tag`. -/
theorem C1_partial_never_removes_counterexample :
    5 ∈ recipeTagIds c1Store 10 ∧
    (patchRecipe c1Store 1 10 c1PayloadTags).1 = Http.ok200 ∧
    5 ∉ recipeTagIds (patchRecipe c1Store 1 10 c1PayloadTags).2 10 ∧
    (⟨5, 1, "karthik"⟩ : Tag) ∈ (patchRecipe c1Store 1 10 c1PayloadTags).2.tags := by
  decide

/-- C1 (amended): for every existing recipe and PATCH update, if the
tags field is entirely absent from the payload the association set is
left unchanged; if the field is present, FULL semantics apply — the
resulting association set consists exactly of the entities resolved
from the supplied names (every member was resolved from some supplied
name, so members not named are removed, and every supplied name has a
resolved entity in the set), each belonging to the recipe's owner. The
same algorithm serves the ingredients field. -/
theorem C1_patch_tags_semantics
    (s : Store) (u rid : Nat) (p : RecipePayload) (r : Recipe)
    (hids : ∀ x ∈ s.recipes, ∀ y ∈ s.recipes, x.id = y.id → x = y)
    (hobj : getObject s u rid = some r) :
    (p.tags = none →
      recipeTagIds (patchRecipe s u rid p).2 rid = recipeTagIds s rid) ∧
    (∀ names, p.tags = some names →
      (∀ tid ∈ recipeTagIds (patchRecipe s u rid p).2 rid,
        ∃ t, t ∈ (patchRecipe s u rid p).2.tags ∧ t.id = tid ∧
          t.userId = r.userId ∧ t.name ∈ names) ∧
      (∀ n ∈ names, ∃ t, t ∈ (patchRecipe s u rid p).2.tags ∧
        t.userId = r.userId ∧ t.name = n ∧
        t.id ∈ recipeTagIds (patchRecipe s u rid p).2 rid)) := by
  have hobj2 : s.recipes.find? (fun x => x.userId == u && x.id == rid) = some r := hobj
  have hpred := List.find?_some hobj2
  have hmem := List.mem_of_find?_eq_some hobj2
  simp [Bool.and_eq_true] at hpred
  obtain ⟨hru, hridr⟩ := hpred
  subst hridr
  constructor
  · intro hnone
    simp only [patchRecipe, hobj, hnone, reconcileOnUpdate]
    rw [recipeTagIds_replaceRecipe s (applyScalars r p) r hmem hids rfl]
    rw [recipeTagIds_of_mem s r hmem hids]
    rfl
  · intro names hsome
    simp only [patchRecipe, hobj, hsome, reconcileOnUpdate]
    have hmem2 : r ∈ (resolveAll s (applyScalars r p).userId names []).2.recipes := by
      rw [resolveAll_recipes]; exact hmem
    have hids2 : ∀ x ∈ (resolveAll s (applyScalars r p).userId names []).2.recipes,
        ∀ y ∈ (resolveAll s (applyScalars r p).userId names []).2.recipes,
        x.id = y.id → x = y := by
      simp only [resolveAll_recipes]; exact hids
    have hrecs : (resolveAll s (applyScalars r p).userId names []).2.recipes
        = s.recipes := resolveAll_recipes _ names s []
    have hA : recipeTagIds
        (replaceRecipe (resolveAll s (applyScalars r p).userId names []).2
          { applyScalars r p with
              tagIds := (resolveAll s (applyScalars r p).userId names []).1 }) r.id
        = (resolveAll s (applyScalars r p).userId names []).1 := by
      simp only [recipeTagIds, replaceRecipe, hrecs]
      rw [find?_replace_key s.recipes
        { applyScalars r p with
            tagIds := (resolveAll s (applyScalars r p).userId names []).1 } r.id rfl]
      rw [find?_id_self s.recipes r hmem hids]
      rfl
    constructor
    · intro tid htid
      rw [hA] at htid
      rcases resolveAll_sound _ names s [] tid htid with h0 | ⟨t, ht, h1, h2, h3⟩
      · cases h0
      · exact ⟨t, ht, h1, h2, h3⟩
    · intro n hn
      obtain ⟨t, ht, h1, h2, h3⟩ := resolveAll_complete _ names s [] n hn
      refine ⟨t, ht, h1, h2, ?_⟩
      rw [hA]
      exact h3

/-- C1 witness: the theorem applied to the `c1Store` fixture, once with
the tags field absent (association set unchanged) and once with the
field present (every supplied name ends up resolved and associated). -/
theorem C1_patch_tags_semantics_witness :
    (∀ x ∈ c1Store.recipes, ∀ y ∈ c1Store.recipes, x.id = y.id → x = y) ∧
    getObject c1Store 1 10 = some c1Recipe ∧
    recipeTagIds (patchRecipe c1Store 1 10 c1PayloadNoTags).2 10
      = recipeTagIds c1Store 10 ∧
    (∀ n ∈ ["perisetti"],
      ∃ t, t ∈ (patchRecipe c1Store 1 10 c1PayloadTags).2.tags ∧
        t.userId = c1Recipe.userId ∧ t.name = n ∧
        t.id ∈ recipeTagIds (patchRecipe c1Store 1 10 c1PayloadTags).2 10) :=
  ⟨by decide, by decide,
   (C1_patch_tags_semantics c1Store 1 10 c1PayloadNoTags c1Recipe
     (by decide) (by decide)).1 rfl,
   ((C1_patch_tags_semantics c1Store 1 10 c1PayloadTags c1Recipe
     (by decide) (by decide)).2 ["perisetti"] rfl).2⟩

/-- C8: the owner of a recipe is set exactly once at creation from the
authenticated requester (`perform_create` saves with
`user=self.request.user`), and every update leaves it unchanged: the
serializer exposes no writable user field, so whatever `userId` value
the payload carries, after the PATCH the recipe's owner still equals
the pre-update owner (hence, inductively, the creator). -/
theorem C8_owner_immutable
    (s : Store) (u rid : Nat) (p : RecipePayload) (r : Recipe)
    (title link : String) (tm : Nat) (tagNames : Option (List String))
    (hids : ∀ x ∈ s.recipes, ∀ y ∈ s.recipes, x.id = y.id → x = y)
    (hobj : getObject s u rid = some r) :
    (createRecipe s u title tm link tagNames).1.userId = u ∧
    recipeOwner s rid = some r.userId ∧
    recipeOwner (patchRecipe s u rid p).2 rid = some r.userId := by
  have hobj2 : s.recipes.find? (fun x => x.userId == u && x.id == rid) = some r := hobj
  have hpred := List.find?_some hobj2
  have hmem := List.mem_of_find?_eq_some hobj2
  simp [Bool.and_eq_true] at hpred
  obtain ⟨hru, hridr⟩ := hpred
  subst hridr
  refine ⟨?_, ?_, ?_⟩
  · cases tagNames <;> rfl
  · exact recipeOwner_of_mem s r hmem hids
  · cases hp : p.tags with
    | none =>
        simp only [patchRecipe, hobj, hp, reconcileOnUpdate]
        rw [recipeOwner_replaceRecipe s (applyScalars r p) r hmem hids rfl]
        rfl
    | some names =>
        simp only [patchRecipe, hobj, hp, reconcileOnUpdate]
        have hmem2 : r ∈ (resolveAll s (applyScalars r p).userId names []).2.recipes := by
          rw [resolveAll_recipes]; exact hmem
        have hids2 : ∀ x ∈ (resolveAll s (applyScalars r p).userId names []).2.recipes,
            ∀ y ∈ (resolveAll s (applyScalars r p).userId names []).2.recipes,
            x.id = y.id → x = y := by
          simp only [resolveAll_recipes]; exact hids
        rw [recipeOwner_replaceRecipe _
          { applyScalars r p with
              tagIds := (resolveAll s (applyScalars r p).userId names []).1 }
          r hmem2 hids2 rfl]
        rfl

/-- C8 witness: the theorem applied to the `c8Store` fixture with the
payload of `test_update_error`, which tries to hand the recipe to
user 2. -/
theorem C8_owner_immutable_witness :
    (∀ x ∈ c8Store.recipes, ∀ y ∈ c8Store.recipes, x.id = y.id → x = y) ∧
    getObject c8Store 1 4 = some c8Recipe ∧
    ((createRecipe c8Store 1 "sample recipe title" 22 "" none).1.userId = 1 ∧
     recipeOwner c8Store 4 = some c8Recipe.userId ∧
     recipeOwner (patchRecipe c8Store 1 4 c8Payload).2 4 = some c8Recipe.userId) :=
  ⟨by decide, by decide,
   C8_owner_immutable c8Store 1 4 c8Payload c8Recipe "sample recipe title" "" 22 none
     (by decide) (by decide)⟩

/-- C2: the Upsert Resolver is idempotent — resolving `(U, x)` a second
time straight after the first returns the same entity and leaves the
store unchanged (no duplicate row) — and, concretely, creating a recipe
whose tag-name list is `["a", "a"]` on an empty store yields exactly one
associated tag membership and exactly one Tag row. -/
theorem C2_upsert_idempotent :
    (∀ (s : Store) (u : Nat) (n : String),
      resolveTag (resolveTag s u n).2 u n = resolveTag s u n) ∧
    (createRecipe ⟨[], []⟩ 1 "sample recipe title" 20 ""
      (some ["a", "a"])).1.tagIds.length = 1 ∧
    (createRecipe ⟨[], []⟩ 1 "sample recipe title" 20 ""
      (some ["a", "a"])).2.tags.length = 1 :=
  ⟨resolveTag_idem, by decide, by decide⟩

/-- C4: the recipe-list queryset ignores the `tags` query parameter —
at the fixture of `test_filter_by_tags`, the request carrying
`tags=1,2` still returns the recipe associated with neither tag, and
the result is identical to the unfiltered request, contradicting the
claimed union-filter semantics. -/
theorem C4_tags_filter_ignored :
    c4FishRecipe ∈ recipeQueryset c4Store 1 ⟨some "1,2", none⟩ ∧
    c4FishRecipe.tagIds = [] ∧
    recipeQueryset c4Store 1 ⟨some "1,2", none⟩
      = recipeQueryset c4Store 1 ⟨none, none⟩ :=
  ⟨by decide, by decide, rfl⟩

/-- C5: the tag-list queryset ignores the `assigned_only` query
parameter — at the fixture of `test_filter_assigned_only`, the request
carrying `assigned_only=1` still returns the tag with zero associated
recipes, and the result is identical to the unfiltered request. -/
theorem C5_assigned_filter_ignored :
    c5UnassignedTag ∈ tagQueryset c5Store 1 ⟨some 1⟩ ∧
    (∀ r ∈ c5Store.recipes, c5UnassignedTag.id ∉ r.tagIds) ∧
    tagQueryset c5Store 1 ⟨some 1⟩ = tagQueryset c5Store 1 ⟨none⟩ :=
  ⟨by unfold tagQueryset; rw [List.mem_insertionSort]; decide, by decide, rfl⟩

/-- C6: the password-change endpoint is neither registration nor token
issuance, yet its view declares no authentication or permission classes,
so an unauthenticated request is not rejected with 401 and reaches a
handler that mutates the addressed user's credentials. -/
theorem C6_password_change_unauthenticated :
    Endpoint.passwordChange ≠ Endpoint.createUser ∧
    Endpoint.passwordChange ≠ Endpoint.createToken ∧
    requiresAuth Endpoint.passwordChange = false ∧
    unauthenticatedRequestMutates Endpoint.passwordChange = true := by
  decide

/-- C7: because `extra_kwargs` is keyed by the misspelling "passowrd",
no `min_length` constraint is attached to the password field, and the
4-character registration payload of `test_user_with_password_short`
passes serializer validation instead of being rejected with 400. -/
theorem C7_short_password_not_rejected :
    c7ShortPasswordPayload.password.length < 5 ∧
    minLengthFor "password" = none ∧
    validRegistration [] c7ShortPasswordPayload = true := by
  decide

/-- C9: while the upload action runs, `self.action` is the handler
method name "upload_image", which never matches the "upload-image"
branch of `get_serializer_class`, so the image serializer is never
selected — the upload request cannot produce the claimed 200 response
serialized by `RecipeImageSerializer`. -/
theorem C9_upload_serializer_mismatch :
    getSerializerClass uploadImageActionName
      = SerializerClass.recipeDetailSerializer ∧
    getSerializerClass uploadImageActionName
      ≠ SerializerClass.recipeImageSerializer := by
  decide

/-- C10: `UserSerializer.create` passes the entire validated-data
mapping as the single positional (email) argument of `create_user` and
supplies no password argument — in particular the email slot does not
receive the payload's email string. -/
theorem C10_create_user_call_shape :
    ∀ vd : RegistrationPayload,
      (userSerializerCreate vd).emailArg = EmailArg.fromMapping vd ∧
      (userSerializerCreate vd).passwordArg = none ∧
      (userSerializerCreate vd).emailArg ≠ EmailArg.fromString vd.email :=
  fun _vd => ⟨rfl, rfl, fun h => EmailArg.noConfusion h⟩

end RecipeApp
